import Mathlib

/-!
Verification of the heuristic email-risk scoring engine of the
cybersecurity-games repository (`src/components/EmailDetector.tsx`).

The TypeScript source is shallowly embedded below.  Strings are Lean
`String`s (lists of characters); the JavaScript regular expressions used by
the source are embedded as explicit, executable scanners that implement the
matching semantics of the concrete patterns appearing in the source
(leftmost match, greedy character classes, `lastIndex` continuation for the
`g` flag, case folding for the `i` flag).  The third-party `tldts` library
(public-suffix-aware domain parsing) and the WHATWG `URL` constructor are
not part of the repository; they are modelled explicitly (`getDomainModel`,
`urlHostname`) with an embedded subset of the public suffix list that covers
every hostname occurring in this development, and with the WHATWG forbidden
host code points.  All definitions are total and executable.
-/

namespace EmailDetector

/-! ### Generic string helpers -/

/-- Does `hay` start with `n`?  (List-of-characters version.) -/
def leadsWith : List Char → List Char → Bool
  | [], _ => true
  | _ :: _, [] => false
  | a :: as, b :: bs => a == b && leadsWith as bs

/-- Case-insensitive version of `leadsWith` (ASCII case folding, matching
the behaviour of the `i` regex flag on the ASCII patterns of the source). -/
def leadsWithCI : List Char → List Char → Bool
  | [], _ => true
  | _ :: _, [] => false
  | a :: as, b :: bs => a.toLower == b.toLower && leadsWithCI as bs

/-- Does `needle` occur (contiguously) somewhere in `hay`?
Model of JavaScript `String.prototype.includes`. -/
def occursIn (needle : List Char) : List Char → Bool
  | [] => needle.isEmpty
  | c :: h => leadsWith needle (c :: h) || occursIn needle h

/-- `hay.includes needle` on `String`s. -/
def strOccurs (hay needle : String) : Bool :=
  occursIn needle.data hay.data

/-- Does `hay` start with `n`, on `String`s. -/
def strLeads (needle hay : String) : Bool :=
  leadsWith needle.data hay.data

/-- Does `hay` end with `needle`, on `String`s.
Model of JavaScript `String.prototype.endsWith`. -/
def strTrails (needle hay : String) : Bool :=
  leadsWith needle.data.reverse hay.data.reverse

/-- Model of the JavaScript `\s` character class, restricted to the ASCII
range (the inputs of this development are ASCII). -/
def jsWhitespace (c : Char) : Bool :=
  c == ' ' || c == '\t' || c == '\n' || c == '\r' || c == '\x0b' || c == '\x0c'

/-- ASCII lower-casing of a string; model of
`String.prototype.toLowerCase` on ASCII input. -/
def lowerStr (s : String) : String :=
  ⟨s.data.map Char.toLower⟩

/-- Model of `String.prototype.trim`. -/
def trimJs (s : String) : String :=
  ⟨((s.data.dropWhile jsWhitespace).reverse.dropWhile jsWhitespace).reverse⟩

/-! ### Configuration constants (transcribed from the source) -/

/-- Field-for-field transcription of the `WEIGHTS` object literal. -/
structure Weights where
  keyword : Nat
  suspiciousUrl : Nat
  longDomain : Nat
  punycode : Nat
  brandLookalike : Nat
  freeProviderAsCorp : Nat
  linkMismatch : Nat
  dangerousAttachment : Nat
  macroAttachment : Nat
  doubleExtension : Nat
  replyToMismatch : Nat
  spfFailOrMissing : Nat

/-- `WEIGHTS` from the source. -/
def WEIGHTS : Weights :=
  ⟨2,  -- keyword
   3,  -- suspiciousUrl
   2,  -- longDomain
   3,  -- punycode
   4,  -- brandLookalike
   2,  -- freeProviderAsCorp
   3,  -- linkMismatch
   5,  -- dangerousAttachment
   4,  -- macroAttachment
   5,  -- doubleExtension
   4,  -- replyToMismatch
   3⟩  -- spfFailOrMissing

/-- `PHISHING_KEYWORDS` from the source. -/
def PHISHING_KEYWORDS : List String :=
  ["urgent", "verify", "account locked", "password reset", "click here",
   "last warning", "act now", "invoice attached", "bank transfer",
   "payment declined", "confirm your account"]

/-- `DANGEROUS_EXTS` from the source. -/
def DANGEROUS_EXTS : List String :=
  [".exe", ".scr", ".bat", ".vbs", ".js", ".cmd", ".pif", ".jar"]

/-- `RISKY_OFFICE_EXTS` from the source. -/
def RISKY_OFFICE_EXTS : List String := [".docm", ".xlsm", ".pptm"]

/-- `FREE_PROVIDERS` from the source. -/
def FREE_PROVIDERS : List String :=
  ["gmail.com", "yahoo.com", "outlook.com", "hotmail.com", "live.com",
   "icloud.com", "aol.com"]

/-- `HIGH_VALUE_BRANDS` from the source. -/
def HIGH_VALUE_BRANDS : List String :=
  ["paypal.com", "microsoft.com", "apple.com", "amazon.com", "google.com",
   "netflix.com", "bankofamerica.com", "chase.com"]

/-! ### Model of the `tldts` dependency and the WHATWG `URL` constructor

`tldts.getDomain` resolves a hostname to its public-suffix-aware registered
domain (eTLD+1).  It is a third-party dependency of the repository, modelled
here with an embedded subset of the public suffix list that contains every
suffix relevant to the hostnames of this development; for a hostname whose
top-level label is not in the embedded list, `tldts`' default behaviour is
used: the last label is treated as the public suffix, so the registered
domain is the last two labels. -/

/-- Embedded subset of the public suffix list (model of the `tldts`
dependency's data). -/
def publicSuffixes : List String :=
  ["com", "net", "org", "cn", "uk", "co.uk", "io", "edu", "gov",
   "com.cn", "org.cn", "net.cn", "gov.cn", "edu.cn"]

/-- Is every character a valid hostname character (letters, digits,
hyphen, dot, underscore)?  Model of `tldts`' hostname validation. -/
def validHostChars (l : List Char) : Bool :=
  l.all (fun c => c.isAlphanum || c == '-' || c == '.' || c == '_')

/-- Drop trailing dots of a fully-qualified hostname. -/
def dropTrailingDots (l : List Char) : List Char :=
  (l.reverse.dropWhile (· == '.')).reverse

/-- Split on a separator character (semantics of JavaScript
`String.prototype.split` with a one-character separator). -/
def splitOnChar (sep : Char) : List Char → List (List Char)
  | [] => [[]]
  | c :: l =>
    if c == sep then [] :: splitOnChar sep l
    else
      match splitOnChar sep l with
      | [] => [[c]]
      | h :: t => (c :: h) :: t

/-- The dot-separated labels of a hostname. -/
def splitLabels (s : String) : List String :=
  (splitOnChar '.' s.data).map (fun l => ⟨l⟩)

/-- Join labels with dots (inverse of `splitLabels`). -/
def joinDots : List String → String
  | [] => ""
  | [x] => x
  | x :: xs => x ++ "." ++ joinDots xs

/-- Modelled from the `tldts` dependency: `getDomain`, the
public-suffix-aware registered domain (eTLD+1) of a hostname, `none` when
the hostname has no registrable domain (single label, itself a public
suffix, or syntactically invalid). -/
def getDomainModel (host : String) : Option String :=
  let h : String := ⟨dropTrailingDots (lowerStr host).data⟩
  let labels := splitLabels h
  if h = "" then none
  else if labels.any (· = "") then none
  else if labels.length ≤ 1 then none
  else if publicSuffixes.contains h then none
  else
    -- the longest listed public suffix that is a proper suffix of `h`,
    -- if any; otherwise the last label (tldts' default for unknown TLDs)
    let fits := publicSuffixes.filter (fun s => strTrails ("." ++ s) h)
    let suffixLabels :=
      match fits.foldl
          (fun best s =>
            match best with
            | none => some s
            | some b => if s.length > b.length then some s else some b)
          none with
      | some s => (splitLabels s).length
      | none => 1
    let keep := suffixLabels + 1
    some (joinDots (labels.drop (labels.length - keep)))

/-- WHATWG forbidden host code points (ASCII part), plus `%` (a bare `%`
makes percent-decoding fail, and percent-encoded hosts are out of scope of
this model). -/
def forbiddenHostChar (c : Char) : Bool :=
  c == '\x00' || c == '\t' || c == '\n' || c == '\r' || c == ' ' ||
  c == '#' || c == '/' || c == ':' || c == '<' || c == '>' || c == '?' ||
  c == '@' || c == '[' || c == '\\' || c == ']' || c == '^' || c == '|' ||
  c == '%'

/-- Split a list at the first occurrence of a character satisfying `p`:
returns the part before and the part strictly after (`none` when absent). -/
def splitAtFirst (p : Char → Bool) : List Char → List Char × Option (List Char)
  | [] => ([], none)
  | c :: l =>
    if p c then ([], some l)
    else
      let (pre, post) := splitAtFirst p l
      (c :: pre, post)

/-- The part of `l` strictly after the last occurrence of a character
satisfying `p` (all of `l` when absent). -/
def afterLast (p : Char → Bool) (l : List Char) : List Char :=
  (splitAtFirst p l.reverse).1.reverse

/-- Modelled from the WHATWG `URL` constructor (as invoked by the source on
`http(s)` URLs): `new URL(u).hostname`, `none` when the constructor throws.
The input is expected to carry an `http://` or `https://` scheme (the
source prepends one).  After the scheme, extra slashes are skipped, the
authority runs to the first `/`, `\`, `?` or `#`, userinfo before the last
`@` is dropped, a `:port` (digits only) is stripped, and the host is
lower-cased; an empty host or a forbidden host code point is a parse
failure.  IDNA conversion of non-ASCII hosts and percent-encoded hosts are
out of scope of this model. -/
def urlHostname (u : String) : Option String :=
  let l := u.data
  let afterScheme : Option (List Char) :=
    if leadsWithCI "https://".data l then some (l.drop 8)
    else if leadsWithCI "http://".data l then some (l.drop 7)
    else none
  match afterScheme with
  | none => none
  | some rest =>
    let rest := rest.dropWhile (fun c => c == '/' || c == '\\')
    let authority := rest.takeWhile
      (fun c => !(c == '/' || c == '\\' || c == '?' || c == '#'))
    let hostPort := afterLast (· == '@') authority
    let (host, port) := splitAtFirst (· == ':') hostPort
    let portOk := match port with
      | none => true
      | some p => p.all Char.isDigit
    if host.isEmpty then none
    else if host.any forbiddenHostChar then none
    else if !portOk then none
    else some ⟨host.map Char.toLower⟩

/-- Modelled from the `tldts` dependency: `parse(raw).domain`, the
last-resort parse used by the source when the `URL` constructor throws.
`tldts` extracts a hostname from the raw string (dropping a scheme,
userinfo, port, path and query), validates it, and resolves its registered
domain. -/
def parseTldDomain (raw : String) : Option String :=
  let l := (lowerStr raw).data
  let afterScheme :=
    match splitAtFirst (· == '/') l with
    | (_, some ('/' :: rest)) => rest
    | _ => l
  let authority := afterScheme.takeWhile
    (fun c => !(c == '/' || c == '?' || c == '#'))
  let hostPort := afterLast (· == '@') authority
  let (host, _) := splitAtFirst (· == ':') hostPort
  if host.isEmpty then none
  else if !validHostChars host then none
  else getDomainModel ⟨host⟩

/-! ### Helpers transcribed from the source -/

/-- `normalizeStr` from the source: `s.toLowerCase().trim()`. -/
def normalizeStr (s : String) : String :=
  trimJs (lowerStr s)

/-- The regex `/^https?:\/\//i` used by `safeGetDomainFromUrl`. -/
def hasHttpScheme (raw : String) : Bool :=
  leadsWithCI "https://".data raw.data || leadsWithCI "http://".data raw.data

/-- `safeGetDomainFromUrl` from the source: parse the (possibly
scheme-less) URL, resolve the hostname's registered domain with
`getDomain`, falling back to the raw hostname (`getDomain(url.hostname) ||
url.hostname`); when the `URL` constructor throws, fall back to
`tldts.parse`, and return `none` when everything fails. -/
def safeGetDomainFromUrl (raw : String) : Option String :=
  let withScheme := if hasHttpScheme raw then raw else "http://" ++ raw
  match urlHostname withScheme with
  | some h => some ((getDomainModel h).getD h)
  | none => parseTldDomain raw

/-- `emailToDomain`'s regex `/@([^>\s]+)>?$|@([^\s]+)/` applied to the
(lower-cased) e-mail: at the leftmost position where an alternative
matches, the first alternative (host up to an optional trailing `>` at the
end of the string) is preferred over the second (host up to whitespace). -/
def emailHostFrom : List Char → Option (List Char)
  | [] => none
  | '@' :: rest =>
    let w := rest.takeWhile (fun c => !(jsWhitespace c || c == '>'))
    let r := rest.drop w.length
    if !w.isEmpty && (r.isEmpty || r == ['>']) then some w
    else
      let w2 := rest.takeWhile (fun c => !jsWhitespace c)
      if !w2.isEmpty then some w2 else emailHostFrom rest
  | _ :: rest => emailHostFrom rest

/-- `emailToDomain` from the source. -/
def emailToDomain (email : String) : Option String :=
  match emailHostFrom (lowerStr email).data with
  | none => none
  | some w =>
    let host : String := ⟨w⟩
    some ((getDomainModel host).getD host)

/-- `deobfuscateHomoglyphs` from the source. -/
def deobfuscateHomoglyphs (s : String) : String :=
  ⟨s.data.map (fun c =>
    if c == '0' then 'o'
    else if c == '1' then 'l'
    else if c == '3' then 'e'
    else if c == '5' then 's'
    else if c == '7' then 't'
    else if c == '@' then 'a'
    else c)⟩

/-- `looksLikeBrand` from the source. -/
def looksLikeBrand (domain brandDomain : String) : Bool :=
  let d := deobfuscateHomoglyphs (lowerStr domain)
  let b := lowerStr brandDomain
  if d == b then false
  else if strOccurs d b && !strTrails b d then true
  else
    let stripped : String := ⟨d.data.filter (fun c => 'a' ≤ c && c ≤ 'z')⟩
    let strippedB : String := ⟨b.data.filter (fun c => 'a' ≤ c && c ≤ 'z')⟩
    stripped == strippedB

/-! ### The regex scanners of `extractAllUrls` / `extractLinkTextPairs`

Each scanner is an executable embedding of one concrete JavaScript global
regex: it tries a match at each position from the left, advances one
character on failure and past the match on success (`lastIndex`),
character classes are greedy, and literals marked `i` fold ASCII case.
The `fuel` argument (always instantiated with the text length plus one,
an upper bound since every step consumes at least one character) makes the
recursion structural. -/

/-- Match `https?:\/\/` (case-insensitively) at the head; on success return
the matched characters and the remainder. -/
def matchScheme (l : List Char) : Option (List Char × List Char) :=
  if leadsWithCI "https://".data l then some (l.take 8, l.drop 8)
  else if leadsWithCI "http://".data l then some (l.take 7, l.drop 7)
  else none

/-- A character matched by `[^\s)]`. -/
def urlRunChar (c : Char) : Bool :=
  !(jsWhitespace c || c == ')')

/-- The global matches of `/https?:\/\/[^\s)]+/gi`. -/
def plainScan : Nat → List Char → List String
  | 0, _ => []
  | _ + 1, [] => []
  | fuel + 1, c :: rest =>
    match matchScheme (c :: rest) with
    | some (pre, after) =>
      let run := after.takeWhile urlRunChar
      if run.isEmpty then plainScan fuel rest
      else (⟨pre ++ run⟩ : String) :: plainScan fuel (after.drop run.length)
    | none => plainScan fuel rest

/-- Plain URLs of a text: `text.match(/https?:\/\/[^\s)]+/gi) || []`. -/
def plainUrlMatches (text : String) : List String :=
  plainScan (text.data.length + 1) text.data

/-- The global matches of `/\[[^\]]+\]\((https?:\/\/[^\s)]+)\)/gi`,
as (display, href) capture pairs. -/
def mdScan : Nat → List Char → List (String × String)
  | 0, _ => []
  | _ + 1, [] => []
  | fuel + 1, c :: rest =>
    if c == '[' then
      let disp := rest.takeWhile (· != ']')
      let r1 := rest.drop disp.length
      match r1 with
      | ']' :: '(' :: r2 =>
        if disp.isEmpty then mdScan fuel rest
        else
          match matchScheme r2 with
          | some (pre, after) =>
            let run := after.takeWhile urlRunChar
            let r3 := after.drop run.length
            match r3 with
            | ')' :: r4 =>
              if run.isEmpty then mdScan fuel rest
              else (⟨disp⟩, (⟨pre ++ run⟩ : String)) :: mdScan fuel r4
            | _ => mdScan fuel rest
          | none => mdScan fuel rest
      | _ => mdScan fuel rest
    else mdScan fuel rest

/-- Markdown link pairs of a text. -/
def mdPairs (text : String) : List (String × String) :=
  mdScan (text.data.length + 1) text.data

/-- Markdown link targets (capture 1 of the `extractAllUrls` regex). -/
def mdTargets (text : String) : List String :=
  (mdPairs text).map Prod.snd

/-- Inside an `<a ...>` tag body `afterA` (everything following `"<a "`),
try the candidate positions for the literal `href="` from the greediest
(`[^>]*` longest, i.e. right-most) to the left-most, as regex backtracking
does; for each try the continuation `cont` on the capture `[^\"]+` and the
remainder after the closing quote.  `cands` holds the candidate offsets in
decreasing order. -/
def tryHrefAt (afterA : List Char)
    (cont : List Char → List Char → Option α) :
    List Nat → Option α
  | [] => none
  | i :: is =>
    let atI := afterA.drop i
    let afterHref := atI.drop 6
    let cap := afterHref.takeWhile (· != '"')
    let rQuote := afterHref.drop cap.length
    (match rQuote with
     | '"' :: r2 =>
       if cap.isEmpty then none
       else cont cap r2
     | _ => none).orElse (fun _ => tryHrefAt afterA cont is)

/-- Candidate offsets (decreasing) at which `href="` occurs within the
`[^>]*` region of an anchor tag. -/
def hrefCandidates (afterA : List Char) : List Nat :=
  let tagPre := afterA.takeWhile (· != '>')
  ((List.range (tagPre.length + 1)).filter
    (fun i => leadsWithCI "href=\"".data (afterA.drop i))).reverse

/-- After the closing quote of the `href` value, match `[^>]*>`:
the remainder strictly after the first `>`, if any. -/
def closeTag (l : List Char) : Option (List Char) :=
  let mid := l.takeWhile (· != '>')
  match l.drop mid.length with
  | '>' :: r => some r
  | _ => none

/-- The global matches of `/<a [^>]*href=\"([^\"]+)\"[^>]*>/gi`
(capture 1: the href value). -/
def htmlScan : Nat → List Char → List String
  | 0, _ => []
  | _ + 1, [] => []
  | fuel + 1, c :: rest =>
    if leadsWithCI "<a ".data (c :: rest) then
      let afterA := rest.drop 2
      match tryHrefAt afterA
          (fun cap r2 => (closeTag r2).map (fun r3 => ((⟨cap⟩ : String), r3)))
          (hrefCandidates afterA) with
      | some (href, r3) => href :: htmlScan fuel r3
      | none => htmlScan fuel rest
    else htmlScan fuel rest

/-- HTML anchor href values of a text. -/
def htmlHrefs (text : String) : List String :=
  htmlScan (text.data.length + 1) text.data

/-- Lazy search for `</a>` (case-insensitive) where `.` of `(.*?)` cannot
cross a line terminator: the shortest display text followed by `</a>`, with
the remainder after the close tag. -/
def findCloseAnchor : Nat → List Char → Option (List Char × List Char)
  | 0, _ => none
  | _ + 1, [] => none
  | fuel + 1, c :: rest =>
    if leadsWithCI "</a>".data (c :: rest) then some ([], (c :: rest).drop 4)
    else if c == '\n' || c == '\r' then none
    else (findCloseAnchor fuel rest).map (fun p => (c :: p.1, p.2))

/-- The global matches of `/<a [^>]*href=\"([^\"]+)\"[^>]*>(.*?)<\/a>/gi`,
as (display, href) pairs (display is capture 2, href capture 1). -/
def htmlPairScan : Nat → List Char → List (String × String)
  | 0, _ => []
  | _ + 1, [] => []
  | fuel + 1, c :: rest =>
    if leadsWithCI "<a ".data (c :: rest) then
      let afterA := rest.drop 2
      match tryHrefAt afterA
          (fun cap r2 =>
            (closeTag r2).bind (fun r3 =>
              (findCloseAnchor (r3.length + 1) r3).map (fun p =>
                (((⟨p.1⟩ : String), (⟨cap⟩ : String)), p.2))))
          (hrefCandidates afterA) with
      | some (pair, r4) => pair :: htmlPairScan fuel r4
      | none => htmlPairScan fuel rest
    else htmlPairScan fuel rest

/-- HTML anchor (display, href) pairs of a text. -/
def htmlLinkPairs (text : String) : List (String × String) :=
  htmlPairScan (text.data.length + 1) text.data

/-- Keep the first occurrence of each element, dropping later duplicates
and anything already in `seen`; model of insertion into a JavaScript `Set`
followed by `Array.from`. -/
def dedupFirst (seen : List String) : List String → List String
  | [] => []
  | u :: l =>
    if u ∈ seen then dedupFirst seen l
    else u :: dedupFirst (u :: seen) l

/-- `extractAllUrls` from the source: plain URLs, then Markdown targets,
then HTML hrefs, inserted into a `Set` (first occurrence kept). -/
def extractAllUrls (text : String) : List String :=
  dedupFirst [] (plainUrlMatches text ++ mdTargets text ++ htmlHrefs text)

/-- `extractLinkTextPairs` from the source: Markdown (display, href) pairs
followed by HTML anchor pairs. -/
def extractLinkTextPairs (text : String) : List (String × String) :=
  mdPairs text ++ htmlLinkPairs text

/-! ### Data model -/

/-- The `options` bag of `DetectionInput`. -/
structure Options where
  treatFreeProvidersAsSuspicious : Bool
  strictBrandLookalikes : Bool
  threshold : Int
deriving DecidableEq

/-- `DetectionInput` from the source. -/
structure DetectionInput where
  subject : String
  body : String
  fromEmail : String
  replyToEmail : String
  authResults : String
  attachments : List String
  options : Options
deriving DecidableEq

/-- The three-valued category of `DetectionResult`. -/
inductive Category where
  | likelySafe
  | needsReview
  | suspicious
deriving DecidableEq

/-- `DetectionResult` from the source. -/
structure DetectionResult where
  score : Nat
  reasons : List String
  category : Category
deriving DecidableEq

/-- The final category computation of `detect`:
`Suspicious` when `score >= threshold * 2`, else `Needs Review` when
`score >= threshold`, else `Likely Safe`. -/
def categoryOf (score : Nat) (threshold : Int) : Category :=
  if (score : Int) ≥ threshold * 2 then .suspicious
  else if (score : Int) ≥ threshold then .needsReview
  else .likelySafe

/-- The `threshold` default of the UI component (`useState(7)`; the
`Analyze` fallback `parseInt(e.target.value || "7", 10)` uses the same
value). -/
def defaultThreshold : Int := 7

/-! ### Core detection (`detect`)

`detect` is embedded as the sequential composition of the source's
sections; each loop body becomes a named step function on the accumulator
pair (reasons so far, score so far), folded over the corresponding list in
source order. -/

/-- The regex `/(secure|login|update|verify)/i` tested on a domain. -/
def domainSuspKw (domain : String) : Bool :=
  strOccurs (lowerStr domain) "secure" || strOccurs (lowerStr domain) "login" ||
  strOccurs (lowerStr domain) "update" || strOccurs (lowerStr domain) "verify"

/-- The regex `/\.(\w+)\.(exe|bat|scr|cmd|js)$/i` tested on a (lower-cased)
file name: the name ends in `.<word>.<ext>` with `<word>` a nonempty run of
`\w` characters and `<ext>` one of the listed extensions. -/
def hasDoubleExt (lower : String) : Bool :=
  ["exe", "bat", "scr", "cmd", "js"].any (fun ext =>
    let r := lower.data.reverse
    if leadsWith ext.data.reverse r then
      match r.drop ext.length with
      | '.' :: r2 =>
        let run := r2.takeWhile (fun c => c.isAlphanum || c == '_')
        if run.isEmpty then false
        else
          match r2.drop run.length with
          | '.' :: _ => true
          | _ => false
      | _ => false
    else false)

/-- Loop body of section 1 (phishing keywords). -/
def kwStep (text : String) (acc : List String × Nat) (kw : String) :
    List String × Nat :=
  if strOccurs text kw then
    (acc.1 ++ ["Contains suspicious phrase: \"" ++ kw ++ "\""],
     acc.2 + WEIGHTS.keyword)
  else acc

/-- Loop body of section 2 (URLs and domains); the brand loop with `break`
is the first brand in `HIGH_VALUE_BRANDS` for which `looksLikeBrand`
holds. -/
def urlStep (strict : Bool) (acc : List String × Nat) (url : String) :
    List String × Nat :=
  match safeGetDomainFromUrl url with
  | none => acc
  | some domain =>
    let acc :=
      if domain.length > 40 then
        (acc.1 ++ ["Very long domain: " ++ domain], acc.2 + WEIGHTS.longDomain)
      else acc
    let acc :=
      if strLeads "xn--" domain then
        (acc.1 ++ ["Punycode domain detected: " ++ domain],
         acc.2 + WEIGHTS.punycode)
      else acc
    let acc :=
      if domainSuspKw domain then
        (acc.1 ++ ["Suspicious keyword in domain: " ++ domain],
         acc.2 + WEIGHTS.suspiciousUrl)
      else acc
    if strict then
      match HIGH_VALUE_BRANDS.find? (fun b => looksLikeBrand domain b) with
      | some brand =>
        (acc.1 ++ ["Brand lookalike detected: " ++ domain ++ " ~ " ++ brand],
         acc.2 + WEIGHTS.brandLookalike)
      | none => acc
    else acc

/-- Loop body of section 3 (link text vs destination). -/
def pairStep (acc : List String × Nat) (p : String × String) :
    List String × Nat :=
  let d := (safeGetDomainFromUrl p.2).getD ""
  let disp := normalizeStr p.1
  if d ≠ "" ∧ disp ≠ "" ∧ strOccurs disp d = false then
    (acc.1 ++ ["Link text (\"" ++ p.1 ++ "\") does not match destination (" ++
               p.2 ++ ")"],
     acc.2 + WEIGHTS.linkMismatch)
  else acc

/-- Loop body of section 4 (attachments). -/
def attachStep (acc : List String × Nat) (file : String) :
    List String × Nat :=
  let lower := trimJs (lowerStr file)
  if lower = "" then acc
  else
    let acc :=
      if DANGEROUS_EXTS.any (fun ext => strTrails ext lower) then
        (acc.1 ++ ["Dangerous attachment: " ++ file],
         acc.2 + WEIGHTS.dangerousAttachment)
      else acc
    let acc :=
      if RISKY_OFFICE_EXTS.any (fun ext => strTrails ext lower) then
        (acc.1 ++ ["Macro-enabled Office attachment: " ++ file],
         acc.2 + WEIGHTS.macroAttachment)
      else acc
    if hasDoubleExt lower then
      (acc.1 ++ ["Double-extension trick: " ++ file],
       acc.2 + WEIGHTS.doubleExtension)
    else acc

/-- `detect` from the source. -/
def detect (input : DetectionInput) : DetectionResult :=
  let text := normalizeStr (input.subject ++ " " ++ input.body)
  let fromDomain := (emailToDomain input.fromEmail).getD ""
  let replyToDomain := (emailToDomain input.replyToEmail).getD ""
  -- 1) Keywords
  let acc := PHISHING_KEYWORDS.foldl (kwStep text) ([], 0)
  -- 2) URLs & domains
  let acc := (extractAllUrls input.body).foldl
    (urlStep input.options.strictBrandLookalikes) acc
  -- 3) Link text vs destination mismatch
  let acc := (extractLinkTextPairs input.body).foldl pairStep acc
  -- 4) Attachments
  let acc := input.attachments.foldl attachStep acc
  -- 5) Headers (From/Reply-To, SPF)
  let acc :=
    if fromDomain ≠ "" ∧ replyToDomain ≠ "" ∧ fromDomain ≠ replyToDomain then
      (acc.1 ++ ["From (" ++ fromDomain ++ ") ≠ Reply-To (" ++
                 replyToDomain ++ ")"],
       acc.2 + WEIGHTS.replyToMismatch)
    else acc
  let acc :=
    if input.authResults ≠ "" then
      if strOccurs (lowerStr input.authResults) "spf=pass" then acc
      else
        (acc.1 ++ ["SPF not pass in Authentication-Results"],
         acc.2 + WEIGHTS.spfFailOrMissing)
    else acc
  -- 6) Free providers pretending to be corporate
  let acc :=
    if input.options.treatFreeProvidersAsSuspicious ∧ fromDomain ≠ "" then
      if FREE_PROVIDERS.contains fromDomain ∧
         HIGH_VALUE_BRANDS.any (fun b =>
           strOccurs text ((splitLabels b).headD "")) then
        (acc.1 ++ ["Corporate-sounding email sent from free provider (" ++
                   fromDomain ++ ")"],
         acc.2 + WEIGHTS.freeProviderAsCorp)
      else acc
    else acc
  ⟨acc.2, acc.1, categoryOf acc.2 input.options.threshold⟩

/-! ### The two bundled examples (`fillSafeExample`, `fillSuspiciousExample`)

The UI splits the attachments field on commas and trims each name; both
toggles default to on and the threshold to 7. -/

/-- The input assembled by `Analyze` after `fillSafeExample`. -/
def safeExample : DetectionInput :=
  ⟨"Your July invoice is ready",
   "Hi team, your July invoice is attached as a PDF. You can also view it in your account portal at https://portal.legitvendor.com.\n\nIf you have questions, reply to this email.",
   "billing@legitvendor.com",
   "billing@legitvendor.com",
   "spf=pass dkim=pass dmarc=pass",
   ["invoice.pdf"],
   ⟨true, true, 7⟩⟩

/-- The input assembled by `Analyze` after `fillSuspiciousExample`. -/
def suspiciousExample : DetectionInput :=
  ⟨"URGENT: Verify your PayPal account now",
   "Dear user, your account is locked. Click here immediately to verify: [PayPal Secure](http://secure-paypal.com-login.cn).",
   "support@paypa1.com",
   "helpcenter@gmail.com",
   "spf=fail dkim=none",
   ["invoice.docm", "setup.exe"],
   ⟨true, true, 7⟩⟩

/-! ### Analytic decomposition of `detect`

`firings input` is the ordered list of (reason, weight) pairs of the rules
that fire on `input`, assembled section by section in the source's
evaluation order: keywords, per-URL domain rules, link-text mismatches,
attachment rules, the From/Reply-To rule, the SPF rule, and the
free-provider rule.  `detect_firings` below proves that `detect` returns
exactly the reasons and the weight sum of this list. -/

/-- Sum of the weights of a findings list. -/
def sumW (l : List (String × Nat)) : Nat :=
  (l.map Prod.snd).sum

/-- Append a findings list to an accumulator pair. -/
def app (acc : List String × Nat) (fs : List (String × Nat)) :
    List String × Nat :=
  (acc.1 ++ fs.map Prod.fst, acc.2 + sumW fs)

/-- A single conditional finding. -/
def hitP (c : Prop) [Decidable c] (r : String) (w : Nat) :
    List (String × Nat) :=
  if c then [(r, w)] else []

/-- Findings of one phishing keyword. -/
def kwHit (text kw : String) : List (String × Nat) :=
  hitP (strOccurs text kw)
    ("Contains suspicious phrase: \"" ++ kw ++ "\"") WEIGHTS.keyword

/-- Findings of the brand-lookalike rule on one resolved domain. -/
def brandFindings (strict : Bool) (domain : String) : List (String × Nat) :=
  if strict then
    match HIGH_VALUE_BRANDS.find? (fun b => looksLikeBrand domain b) with
    | some brand =>
      [("Brand lookalike detected: " ++ domain ++ " ~ " ++ brand,
        WEIGHTS.brandLookalike)]
    | none => []
  else []

/-- Findings of the four domain rules on one resolved domain. -/
def domainFindings (strict : Bool) (domain : String) : List (String × Nat) :=
  hitP (domain.length > 40) ("Very long domain: " ++ domain)
      WEIGHTS.longDomain ++
  hitP (strLeads "xn--" domain) ("Punycode domain detected: " ++ domain)
      WEIGHTS.punycode ++
  hitP (domainSuspKw domain) ("Suspicious keyword in domain: " ++ domain)
      WEIGHTS.suspiciousUrl ++
  brandFindings strict domain

/-- Findings of one body URL: the domain rules on its resolved domain, and
nothing at all when the domain cannot be resolved (the `continue` of the
source). -/
def urlFindings (strict : Bool) (url : String) : List (String × Nat) :=
  match safeGetDomainFromUrl url with
  | none => []
  | some domain => domainFindings strict domain

/-- Findings of one (display, href) link pair. -/
def pairFindings (p : String × String) : List (String × Nat) :=
  let d := (safeGetDomainFromUrl p.2).getD ""
  let disp := normalizeStr p.1
  hitP (d ≠ "" ∧ disp ≠ "" ∧ strOccurs disp d = false)
    ("Link text (\"" ++ p.1 ++ "\") does not match destination (" ++
     p.2 ++ ")") WEIGHTS.linkMismatch

/-- Findings of one attachment file name. -/
def attachFindings (file : String) : List (String × Nat) :=
  let lower := trimJs (lowerStr file)
  if lower = "" then []
  else
    hitP (DANGEROUS_EXTS.any (fun ext => strTrails ext lower))
        ("Dangerous attachment: " ++ file) WEIGHTS.dangerousAttachment ++
    hitP (RISKY_OFFICE_EXTS.any (fun ext => strTrails ext lower))
        ("Macro-enabled Office attachment: " ++ file)
        WEIGHTS.macroAttachment ++
    hitP (hasDoubleExt lower) ("Double-extension trick: " ++ file)
        WEIGHTS.doubleExtension

/-- Findings of the From/Reply-To rule. -/
def replyFindings (fromDomain replyToDomain : String) : List (String × Nat) :=
  hitP (fromDomain ≠ "" ∧ replyToDomain ≠ "" ∧ fromDomain ≠ replyToDomain)
    ("From (" ++ fromDomain ++ ") ≠ Reply-To (" ++ replyToDomain ++ ")")
    WEIGHTS.replyToMismatch

/-- Findings of the SPF rule: fires exactly when the raw
Authentication-Results text is nonempty and does not contain `spf=pass`
(case-insensitively). -/
def spfFindings (authResults : String) : List (String × Nat) :=
  if authResults ≠ "" then
    if strOccurs (lowerStr authResults) "spf=pass" then []
    else [("SPF not pass in Authentication-Results", WEIGHTS.spfFailOrMissing)]
  else []

/-- Findings of the free-provider rule. -/
def freeFindings (treatFree : Bool) (fromDomain text : String) :
    List (String × Nat) :=
  if treatFree ∧ fromDomain ≠ "" then
    hitP (FREE_PROVIDERS.contains fromDomain ∧
          HIGH_VALUE_BRANDS.any (fun b =>
            strOccurs text ((splitLabels b).headD "")))
      ("Corporate-sounding email sent from free provider (" ++ fromDomain ++
       ")") WEIGHTS.freeProviderAsCorp
  else []

/-- All rule firings of an input, in the source's evaluation order. -/
def firings (input : DetectionInput) : List (String × Nat) :=
  let text := normalizeStr (input.subject ++ " " ++ input.body)
  let fromDomain := (emailToDomain input.fromEmail).getD ""
  let replyToDomain := (emailToDomain input.replyToEmail).getD ""
  PHISHING_KEYWORDS.flatMap (kwHit text) ++
  (extractAllUrls input.body).flatMap
    (urlFindings input.options.strictBrandLookalikes) ++
  (extractLinkTextPairs input.body).flatMap pairFindings ++
  input.attachments.flatMap attachFindings ++
  replyFindings fromDomain replyToDomain ++
  spfFindings input.authResults ++
  freeFindings input.options.treatFreeProvidersAsSuspicious fromDomain text

/-- `firings` with the SPF section removed (used to state that an empty
Authentication-Results field contributes nothing). -/
def firingsNoSpf (input : DetectionInput) : List (String × Nat) :=
  let text := normalizeStr (input.subject ++ " " ++ input.body)
  let fromDomain := (emailToDomain input.fromEmail).getD ""
  let replyToDomain := (emailToDomain input.replyToEmail).getD ""
  PHISHING_KEYWORDS.flatMap (kwHit text) ++
  (extractAllUrls input.body).flatMap
    (urlFindings input.options.strictBrandLookalikes) ++
  (extractLinkTextPairs input.body).flatMap pairFindings ++
  input.attachments.flatMap attachFindings ++
  replyFindings fromDomain replyToDomain ++
  freeFindings input.options.treatFreeProvidersAsSuspicious fromDomain text

/-- `input` with one more attachment file name. -/
def withExtraAttachment (i : DetectionInput) (a : String) : DetectionInput :=
  ⟨i.subject, i.body, i.fromEmail, i.replyToEmail, i.authResults,
   i.attachments ++ [a], i.options⟩

/-- The all-blank input (every text field empty, no attachments). -/
def blankInput : DetectionInput := ⟨"", "", "", "", "", [], ⟨true, true, 7⟩⟩

/-- Monotonicity counterexample, base input: the body already contains the
phishing keyword `urgent` (inside the first URL) and ends with a URL. -/
def monoBase : DetectionInput :=
  ⟨"", "http://secure-a.cnurgent http://secure-a.cn", "", "", "", [],
   ⟨false, false, 7⟩⟩

/-- `monoBase` with one more occurrence of the keyword `urgent` appended to
the body. -/
def monoAppended : DetectionInput :=
  ⟨"", "http://secure-a.cnurgent http://secure-a.cn" ++ "urgent", "", "", "",
   [], ⟨false, false, 7⟩⟩

/-! ### `detect` computes exactly the firings list -/

theorem sumW_append (a b : List (String × Nat)) :
    sumW (a ++ b) = sumW a + sumW b := by
  simp [sumW]

theorem app_nil (acc : List String × Nat) : app acc [] = acc := by
  simp [app, sumW]

theorem app_append (acc : List String × Nat) (a b : List (String × Nat)) :
    app (app acc a) b = app acc (a ++ b) := by
  simp [app, sumW_append, List.append_assoc, Nat.add_assoc]

theorem ite_app (c : Prop) [Decidable c] (acc : List String × Nat)
    (r : String) (w : Nat) :
    (if c then (acc.1 ++ [r], acc.2 + w) else acc) = app acc (hitP c r w) := by
  by_cases h : c <;> simp [h, hitP, app, sumW]

theorem kwStep_app (text : String) (acc : List String × Nat) (kw : String) :
    kwStep text acc kw = app acc (kwHit text kw) := by
  rw [kwStep, kwHit, ite_app]

theorem brand_app (strict : Bool) (domain : String)
    (acc : List String × Nat) :
    (if strict then
      match HIGH_VALUE_BRANDS.find? (fun b => looksLikeBrand domain b) with
      | some brand =>
        (acc.1 ++ ["Brand lookalike detected: " ++ domain ++ " ~ " ++ brand],
         acc.2 + WEIGHTS.brandLookalike)
      | none => acc
     else acc) = app acc (brandFindings strict domain) := by
  cases strict with
  | false => simp [brandFindings, app_nil]
  | true =>
    simp only [brandFindings]
    cases HIGH_VALUE_BRANDS.find? (fun b => looksLikeBrand domain b) with
    | none => simp [app_nil]
    | some brand => simp [app, sumW]

theorem urlStep_app (strict : Bool) (acc : List String × Nat)
    (url : String) :
    urlStep strict acc url = app acc (urlFindings strict url) := by
  rw [urlStep, urlFindings]
  cases safeGetDomainFromUrl url with
  | none => rw [app_nil]
  | some domain =>
    simp only [domainFindings]
    rw [ite_app, ite_app, ite_app, brand_app, app_append, app_append,
      app_append, List.append_assoc, List.append_assoc]

theorem pairStep_app (acc : List String × Nat) (p : String × String) :
    pairStep acc p = app acc (pairFindings p) := by
  rw [pairStep, pairFindings, ite_app]

theorem attachStep_app (acc : List String × Nat) (file : String) :
    attachStep acc file = app acc (attachFindings file) := by
  rw [attachStep, attachFindings]
  by_cases h : trimJs (lowerStr file) = ""
  · simp [h, app_nil]
  · simp only [h, if_neg, if_false]
    rw [ite_app, ite_app, ite_app, app_append, app_append,
      List.append_assoc]

theorem foldl_app {α : Type} (step : List String × Nat → α → List String × Nat)
    (f : α → List (String × Nat))
    (h : ∀ acc a, step acc a = app acc (f a)) :
    ∀ (l : List α) (acc), l.foldl step acc = app acc (l.flatMap f)
  | [], acc => by simp [app_nil]
  | a :: l, acc => by
    rw [List.foldl_cons, h, foldl_app step f h l, app_append,
      List.flatMap_cons]

theorem reply_app (fromDomain replyToDomain : String)
    (acc : List String × Nat) :
    (if fromDomain ≠ "" ∧ replyToDomain ≠ "" ∧ fromDomain ≠ replyToDomain then
      (acc.1 ++ ["From (" ++ fromDomain ++ ") ≠ Reply-To (" ++
                 replyToDomain ++ ")"],
       acc.2 + WEIGHTS.replyToMismatch)
     else acc) = app acc (replyFindings fromDomain replyToDomain) := by
  rw [replyFindings, ite_app]

theorem spf_app (authResults : String) (acc : List String × Nat) :
    (if authResults ≠ "" then
      if strOccurs (lowerStr authResults) "spf=pass" then acc
      else
        (acc.1 ++ ["SPF not pass in Authentication-Results"],
         acc.2 + WEIGHTS.spfFailOrMissing)
     else acc) = app acc (spfFindings authResults) := by
  rw [spfFindings]
  by_cases h : authResults = "" <;>
    simp only [h, if_neg, if_pos, not_true, not_false_iff, if_false,
      if_true, ne_eq]
  · simp [app_nil]
  · by_cases h2 : strOccurs (lowerStr authResults) "spf=pass" <;>
      simp [h2, app_nil, app, sumW]

theorem free_app (treatFree : Bool) (fromDomain text : String)
    (acc : List String × Nat) :
    (if treatFree ∧ fromDomain ≠ "" then
      if FREE_PROVIDERS.contains fromDomain ∧
         HIGH_VALUE_BRANDS.any (fun b =>
           strOccurs text ((splitLabels b).headD "")) then
        (acc.1 ++ ["Corporate-sounding email sent from free provider (" ++
                   fromDomain ++ ")"],
         acc.2 + WEIGHTS.freeProviderAsCorp)
      else acc
     else acc) = app acc (freeFindings treatFree fromDomain text) := by
  rw [freeFindings]
  by_cases h : (treatFree : Prop) ∧ fromDomain ≠ ""
  · rw [if_pos h, if_pos h, ite_app]
  · rw [if_neg h, if_neg h, app_nil]

/-- `detect` returns exactly the reasons and the summed weights of the
ordered `firings` list. -/
theorem detect_firings (input : DetectionInput) :
    detect input = ⟨sumW (firings input), (firings input).map Prod.fst,
      categoryOf (sumW (firings input)) input.options.threshold⟩ := by
  simp only [detect, firings]
  rw [foldl_app (kwStep (normalizeStr (input.subject ++ " " ++ input.body)))
        _ (kwStep_app _),
      foldl_app (urlStep input.options.strictBrandLookalikes) _
        (urlStep_app _),
      foldl_app pairStep _ pairStep_app,
      foldl_app attachStep _ attachStep_app,
      reply_app, spf_app, free_app,
      app_append, app_append, app_append, app_append, app_append, app_append]
  simp [app]

/-! ### Every firing has a positive weight -/

theorem mem_hitP {p : String × Nat} {c : Prop} [Decidable c] {r : String}
    {w : Nat} (h : p ∈ hitP c r w) : p = (r, w) := by
  unfold hitP at h
  split at h
  · simpa using h
  · simp at h

theorem pos_of_hitP {p : String × Nat} {c : Prop} [Decidable c] {r : String}
    {w : Nat} (hw : 0 < w) (h : p ∈ hitP c r w) : 0 < p.2 := by
  rw [mem_hitP h]
  exact hw

theorem brandFindings_pos {p : String × Nat} {strict : Bool} {d : String}
    (h : p ∈ brandFindings strict d) : 0 < p.2 := by
  unfold brandFindings at h
  split at h
  · split at h
    · simp only [List.mem_singleton] at h
      rw [h]
      exact (by decide : (0 : Nat) < WEIGHTS.brandLookalike)
    · simp at h
  · simp at h

theorem domainFindings_pos {p : String × Nat} {strict : Bool} {d : String}
    (h : p ∈ domainFindings strict d) : 0 < p.2 := by
  unfold domainFindings at h
  rcases List.mem_append.mp h with h | h
  · rcases List.mem_append.mp h with h | h
    · rcases List.mem_append.mp h with h | h
      · exact pos_of_hitP (by decide) h
      · exact pos_of_hitP (by decide) h
    · exact pos_of_hitP (by decide) h
  · exact brandFindings_pos h

theorem urlFindings_pos {p : String × Nat} {strict : Bool} {u : String}
    (h : p ∈ urlFindings strict u) : 0 < p.2 := by
  unfold urlFindings at h
  split at h
  · simp at h
  · exact domainFindings_pos h

theorem attachFindings_pos {p : String × Nat} {f : String}
    (h : p ∈ attachFindings f) : 0 < p.2 := by
  simp only [attachFindings] at h
  split at h
  · simp at h
  · rcases List.mem_append.mp h with h | h
    · rcases List.mem_append.mp h with h | h
      · exact pos_of_hitP (by decide) h
      · exact pos_of_hitP (by decide) h
    · exact pos_of_hitP (by decide) h

theorem spfFindings_pos {p : String × Nat} {a : String}
    (h : p ∈ spfFindings a) : 0 < p.2 := by
  unfold spfFindings at h
  split at h
  · split at h
    · simp at h
    · simp only [List.mem_singleton] at h
      rw [h]
      exact (by decide : (0 : Nat) < WEIGHTS.spfFailOrMissing)
  · simp at h

theorem freeFindings_pos {p : String × Nat} {t : Bool} {fd text : String}
    (h : p ∈ freeFindings t fd text) : 0 < p.2 := by
  unfold freeFindings at h
  split at h
  · exact pos_of_hitP (by decide) h
  · simp at h

/-- Every rule that fires contributes a strictly positive weight. -/
theorem firings_pos (input : DetectionInput) :
    ∀ p ∈ firings input, 0 < p.2 := by
  intro p hp
  simp only [firings, List.mem_append, List.mem_flatMap] at hp
  rcases hp with ((((((⟨kw, _, hk⟩ | ⟨u, _, hu⟩) | ⟨q, _, hq⟩)
    | ⟨f, _, hf⟩) | hr) | hs) | hfr)
  · exact pos_of_hitP (by decide) hk
  · exact urlFindings_pos hu
  · exact pos_of_hitP (by decide) hq
  · exact attachFindings_pos hf
  · exact pos_of_hitP (by decide) hr
  · exact spfFindings_pos hs
  · exact freeFindings_pos hfr

theorem sumW_eq_zero {l : List (String × Nat)}
    (hpos : ∀ p ∈ l, 0 < p.2) : sumW l = 0 ↔ l = [] := by
  cases l with
  | nil => simp [sumW]
  | cons p l =>
    constructor
    · intro h
      exfalso
      have h1 := hpos p (by simp)
      have h2 : p.2 + sumW l = 0 := by simpa [sumW] using h
      omega
    · intro h
      exact absurd h (by simp)

/-! ### Appending an attachment -/

/-- The score of `detect` is the weight sum of the firings list. -/
theorem detect_score_eq (i : DetectionInput) :
    (detect i).score = sumW (firings i) := by
  rw [detect_firings]

/-- The reasons of `detect` are the reason strings of the firings list. -/
theorem detect_reasons_eq (i : DetectionInput) :
    (detect i).reasons = (firings i).map Prod.fst := by
  rw [detect_firings]

theorem firings_withExtra (i : DetectionInput) (a : String) :
    sumW (firings (withExtraAttachment i a)) =
      sumW (firings i) + sumW (attachFindings a) := by
  simp only [firings, withExtraAttachment, List.flatMap_append,
    List.flatMap_cons, List.flatMap_nil, List.append_nil]
  simp only [sumW_append]
  omega

/-! ### Remaining helpers for the claims -/

theorem mem_dedupFirst (x : String) : ∀ (l seen : List String),
    x ∈ dedupFirst seen l ↔ (x ∈ l ∧ x ∉ seen)
  | [], seen => by simp [dedupFirst]
  | u :: l, seen => by
    by_cases h : u ∈ seen
    · rw [dedupFirst, if_pos h, mem_dedupFirst x l seen]
      simp only [List.mem_cons]
      constructor
      · exact fun ⟨hx, hn⟩ => ⟨Or.inr hx, hn⟩
      · rintro ⟨hu | hx, hn⟩
        · exact absurd (hu ▸ h) hn
        · exact ⟨hx, hn⟩
    · rw [dedupFirst, if_neg h]
      simp only [List.mem_cons, mem_dedupFirst x l (u :: seen)]
      constructor
      · rintro (rfl | ⟨hx, hn⟩)
        · exact ⟨Or.inl rfl, h⟩
        · simp only [List.mem_cons, not_or] at hn
          exact ⟨Or.inr hx, hn.2⟩
      · rintro ⟨rfl | hx, hn⟩
        · exact Or.inl rfl
        · by_cases hxu : x = u
          · exact Or.inl hxu
          · exact Or.inr ⟨hx, by simp [List.mem_cons, hxu, hn]⟩

set_option maxRecDepth 16000

/-! ### The claims -/

/-- C1: for every `DetectionInput`, `detect` assigns the category
`Suspicious` when the total score is at least `2 * options.threshold`,
otherwise `Needs Review` when the score is at least `options.threshold`,
otherwise `Likely Safe`; the threshold is caller-supplied with UI default
7. -/
theorem claim1_category_thresholds : ∀ i : DetectionInput,
    (detect i).category =
      (if ((detect i).score : Int) ≥ i.options.threshold * 2 then
        Category.suspicious
       else if ((detect i).score : Int) ≥ i.options.threshold then
        Category.needsReview
       else Category.likelySafe) ∧
    defaultThreshold = 7 := by
  intro i
  refine ⟨?_, rfl⟩
  rw [detect_firings]
  rfl

/-- C2 (divergence witness): on the bundled suspicious example, `detect`
returns score 28 (which is at least `2 * 7`), category `Suspicious`, and
reasons containing a link-text mismatch, a dangerous attachment, a
From/Reply-To mismatch and an SPF entry — but NO brand-lookalike entry:
the only body URL resolves to the registered domain `com-login.cn`, which
`looksLikeBrand` rejects for every brand, so the lookalike rule never
fires, contrary to the spec's claim (and to the intent documented in the
source's own comments). -/
theorem claim2_suspicious_example_eval :
    detect suspiciousExample =
      ⟨28,
       ["Contains suspicious phrase: \"urgent\"",
        "Contains suspicious phrase: \"verify\"",
        "Contains suspicious phrase: \"click here\"",
        "Suspicious keyword in domain: com-login.cn",
        "Link text (\"PayPal Secure\") does not match destination (http://secure-paypal.com-login.cn)",
        "Macro-enabled Office attachment: invoice.docm",
        "Dangerous attachment: setup.exe",
        "From (paypa1.com) ≠ Reply-To (gmail.com)",
        "SPF not pass in Authentication-Results"],
       Category.suspicious⟩ ∧
    safeGetDomainFromUrl "http://secure-paypal.com-login.cn" =
      some "com-login.cn" ∧
    (∀ r ∈ (detect suspiciousExample).reasons,
      strLeads "Brand lookalike detected" r = false) := by
  decide

/-- C3: `detect` is deterministic — equal inputs give equal results
(equal score, equal reasons in the same order, equal category). -/
theorem claim3_deterministic : ∀ i j : DetectionInput,
    i = j → detect i = detect j := by
  intro i j h
  rw [h]

/-- C3 witness: determinism instantiated at the safe example. -/
theorem claim3_witness : detect safeExample = detect safeExample :=
  claim3_deterministic safeExample safeExample rfl

/-- C4 counterexample: appending one more occurrence of the phishing
keyword `urgent` to the body (which already contains that keyword)
STRICTLY DECREASES the score: the appended text merges with the URL at the
end of the body, and the merged URL collapses with an already-present
duplicate in the URL `Set`, losing that URL's domain findings. -/
theorem claim4_counterexample :
    monoAppended.subject = monoBase.subject ∧
    monoAppended.body = monoBase.body ++ "urgent" ∧
    monoAppended.fromEmail = monoBase.fromEmail ∧
    monoAppended.replyToEmail = monoBase.replyToEmail ∧
    monoAppended.authResults = monoBase.authResults ∧
    monoAppended.attachments = monoBase.attachments ∧
    monoAppended.options = monoBase.options ∧
    "urgent" ∈ PHISHING_KEYWORDS ∧
    strOccurs (normalizeStr monoBase.body) "urgent" = true ∧
    (detect monoAppended).score < (detect monoBase).score := by
  decide

/-- C4 (amended): adding an attachment file name to the attachment list
never decreases the score (attachment findings are independent and their
weights non-negative); the corresponding statement for appending
keyword-occurrence text to the body is false (`claim4_counterexample`). -/
theorem claim4_attachment_monotone : ∀ (i : DetectionInput) (a : String),
    (detect i).score ≤ (detect (withExtraAttachment i a)).score := by
  intro i a
  rw [detect_score_eq, detect_score_eq, firings_withExtra]
  exact Nat.le_add_right _ _

/-- C5: on the bundled safe example, `detect` returns score 0, no reasons,
and category `Likely Safe`. -/
theorem claim5_safe_example :
    detect safeExample = ⟨0, [], Category.likelySafe⟩ := by
  decide

/-- C6: for every input the score is the sum of the weights of exactly the
rules that fired (the ordered `firings` list, whose reason strings are the
reasons list, assembled in the fixed rule-evaluation order: keywords, then
per-URL domain rules, then link-text mismatches, then attachment rules,
then the From/Reply-To rule, then the SPF rule, then the free-provider
rule); in particular the score is 0 iff the reasons list is empty. -/
theorem claim6_score_decomposition : ∀ i : DetectionInput,
    (detect i).score = sumW (firings i) ∧
    (detect i).reasons = (firings i).map Prod.fst ∧
    ((detect i).score = 0 ↔ (detect i).reasons = []) := by
  intro i
  refine ⟨detect_score_eq i, detect_reasons_eq i, ?_⟩
  rw [detect_score_eq, detect_reasons_eq, sumW_eq_zero (firings_pos i)]
  exact (List.map_eq_nil_iff).symm

/-- C7: `detect` is a total function (every definition of this embedding is
total); a body URL whose domain cannot be resolved is skipped, contributing
no reasons and no score; and an all-blank input triggers no rule at all.
The string `http://%` is a concrete URL on which domain resolution fails
(the `URL` constructor throws and the `tldts` fallback finds no valid
hostname). -/
theorem claim7_no_throw :
    (∀ opts : Options, detect ⟨"", "", "", "", "", [], opts⟩ =
        ⟨0, [], categoryOf 0 opts.threshold⟩) ∧
    (∀ (strict : Bool) (url : String), safeGetDomainFromUrl url = none →
        urlFindings strict url = []) ∧
    (∀ file : String, trimJs (lowerStr file) = "" →
        attachFindings file = []) ∧
    safeGetDomainFromUrl "http://%" = none := by
  refine ⟨?_, ?_, ?_, by decide⟩
  · rintro ⟨f, s, t⟩
    cases f <;> cases s <;> rfl
  · intro strict url h
    simp only [urlFindings, h]
  · intro file h
    simp only [attachFindings, h, if_pos]

/-- C7 witness: the skip behaviour at a concrete malformed URL and at a
concrete blank attachment name. -/
theorem claim7_witness :
    urlFindings true "http://%" = [] ∧ attachFindings "   " = [] :=
  ⟨claim7_no_throw.2.1 true "http://%" (by decide),
   claim7_no_throw.2.2.1 "   " (by decide)⟩

/-- C8: URL extraction collects exactly the plain http(s) URLs, the
Markdown link targets and the HTML anchor href values of the body (as a
deduplicated set), and each URL resolves to the registered domain of its
hostname, falling back to the raw hostname when registered-domain parsing
returns nothing. -/
theorem claim8_extraction :
    (∀ text u : String, u ∈ extractAllUrls text ↔
      (u ∈ plainUrlMatches text ∨ u ∈ mdTargets text ∨ u ∈ htmlHrefs text)) ∧
    (∀ raw h : String,
      urlHostname (if hasHttpScheme raw then raw else "http://" ++ raw) =
        some h →
      safeGetDomainFromUrl raw = some ((getDomainModel h).getD h)) := by
  constructor
  · intro text u
    rw [extractAllUrls, mem_dedupFirst]
    simp
  · intro raw h hh
    simp only [safeGetDomainFromUrl]
    rw [hh]

/-- C8 witness: resolution of a concrete URL through the registered-domain
parser. -/
theorem claim8_witness :
    safeGetDomainFromUrl "http://portal.legitvendor.com" =
      some ((getDomainModel "portal.legitvendor.com").getD
        "portal.legitvendor.com") :=
  claim8_extraction.2 "http://portal.legitvendor.com"
    "portal.legitvendor.com" (by decide)

/-- C9: for every brand domain in `HIGH_VALUE_BRANDS`, `looksLikeBrand`
rejects the brand itself, and a body URL whose registered domain exactly
equals a listed brand contributes no lookalike finding even with
`strictBrandLookalikes` enabled. -/
theorem claim9_exact_brand_not_lookalike : ∀ d ∈ HIGH_VALUE_BRANDS,
    looksLikeBrand d d = false ∧
    ∀ strict : Bool, brandFindings strict d = [] := by
  intro d hd
  fin_cases hd <;>
    exact ⟨by decide, by intro strict; cases strict <;> decide⟩

/-- C9 witness: the first listed brand, with strict lookalike checks on. -/
theorem claim9_witness :
    looksLikeBrand "paypal.com" "paypal.com" = false ∧
    brandFindings true "paypal.com" = [] :=
  ⟨(claim9_exact_brand_not_lookalike "paypal.com" (by decide)).1,
   (claim9_exact_brand_not_lookalike "paypal.com" (by decide)).2 true⟩

/-- C10: with an empty Authentication-Results field the SPF rule never
fires — the firings list equals the one with the SPF section removed — and
in general the SPF finding is present exactly when the field is nonempty
and does not contain `spf=pass` case-insensitively. -/
theorem claim10_spf_gating : ∀ i : DetectionInput,
    (i.authResults = "" →
      spfFindings i.authResults = [] ∧ firings i = firingsNoSpf i) ∧
    (spfFindings i.authResults ≠ [] ↔
      (i.authResults ≠ "" ∧
       strOccurs (lowerStr i.authResults) "spf=pass" = false)) := by
  intro i
  constructor
  · intro h
    have hs : spfFindings i.authResults = [] := by rw [h]; rfl
    refine ⟨hs, ?_⟩
    simp only [firings, firingsNoSpf, hs, List.append_nil]
  · by_cases h1 : i.authResults = ""
    · simp [spfFindings, h1]
    · by_cases h2 : strOccurs (lowerStr i.authResults) "spf=pass"
      · simp [spfFindings, h1, h2]
      · simp [spfFindings, h1, h2]

/-- C10 witness: the gating at the blank input. -/
theorem claim10_witness :
    spfFindings blankInput.authResults = [] ∧
    firings blankInput = firingsNoSpf blankInput :=
  (claim10_spf_gating blankInput).1 rfl

end EmailDetector
